import Mathlib

/-!
Shallow embedding of the GWpy VET core evaluator
(`src/gwpy/toolkits/vet/core.py`) and of the flag-combination logic of
`src/gwvet/tabs.py` (`FlagTab.__init__`, `FlagTab.from_ini`).

Modelling conventions:
* GPS times and trigger field values are Python floats; the properties
  checked here do not depend on rounding, so times are embedded as `ℚ`.
* A `glue.ligolw` table is embedded as a Lean list of rows;
  `Table.copy()` returns a structural copy with no rows, so the
  accumulator `after = triggers.copy()` starts as the empty list.
* Scalar membership `t in segmentlist` (ligo.segments, used by
  `gwpy.segments.DataQualityFlag.active`) is half-open membership in
  some segment: `start <= t < stop`.
* A Python `Metric` object is a callable compared by object identity
  when used as a dictionary key.  Its attributes (`name`,
  `needs_triggers`) together with an identity tag `oid` form the
  `Metric` structure; its callable behaviour is supplied to the
  evaluator as an explicit function `call` from invocation shapes to
  results, so that distinct metric objects with equal attributes stay
  distinct keys while the dispatch protocol remains observable.
-/

namespace Vet

/-- Decidable equality for `Except`, so that concrete evaluator runs
can be checked by `decide`. -/
instance {ε α : Type} [DecidableEq ε] [DecidableEq α] :
    DecidableEq (Except ε α) := fun a b =>
  match a, b with
  | Except.ok x, Except.ok y =>
      if h : x = y then isTrue (by rw [h])
      else isFalse (fun hh => by cases hh; exact h rfl)
  | Except.error x, Except.error y =>
      if h : x = y then isTrue (by rw [h])
      else isFalse (fun hh => by cases hh; exact h rfl)
  | Except.ok _, Except.error _ => isFalse (fun hh => by cases hh)
  | Except.error _, Except.ok _ => isFalse (fun hh => by cases hh)

/-- Python `str.lower` (ASCII case folding), implemented by mapping
over the character list so that it reduces in the kernel. -/
def pyLower (s : String) : String := String.mk (s.data.map Char.toLower)

/-- A time segment `[start, stop)` of a `ligo.segments.segmentlist`. -/
structure Segment where
  start : ℚ
  stop : ℚ
deriving DecidableEq

/-- Scalar containment in one segment: `self[0] <= other < self[1]`. -/
def Segment.containsTime (s : Segment) (t : ℚ) : Bool :=
  decide (s.start ≤ t) && decide (t < s.stop)

/-- Scalar containment in a segment list: membership in some segment. -/
def segmentlistContains (sl : List Segment) (t : ℚ) : Bool :=
  sl.any (fun s => s.containsTime t)

/-- `gwpy.segments.DataQualityFlag`: a named pair of segment lists. -/
structure DataQualityFlag where
  name : String
  active : List Segment
  known : List Segment
deriving DecidableEq

/-- One row of the trigger table.  Only the `time` field is read by the
evaluator (`float(get_row_value(t, 'time'))`); all other columns of the
row are abstracted into an opaque `payload` so that distinct triggers
may share a time. -/
structure Trigger where
  time : ℚ
  payload : ℕ
deriving DecidableEq

/-- `float(get_row_value(t, 'time'))` of `core.py` line 67. -/
def get_row_value_time (t : Trigger) : ℚ := t.time

/-- The attributes of a metric object that the evaluator inspects, plus
an identity tag `oid` standing for Python object identity (two distinct
metric objects with equal attributes are distinct dictionary keys). -/
structure Metric where
  name : String
  needs_triggers : Bool
  oid : ℕ
deriving DecidableEq

/-- The three call shapes a metric can be invoked with by
`evaluate_flag` (`core.py` lines 80-85): `_metric(flag, injections)`,
`_metric(flag, triggers, after=after)`, `_metric(flag)`.  `ι` is the
caller-chosen type of injection data, opaque to the core. -/
inductive Invocation (ι : Type) where
  | safetyCall (flag : DataQualityFlag) (injections : Option ι)
  | triggersCall (flag : DataQualityFlag) (triggers : Option (List Trigger))
      (after : Option (List Trigger))
  | flagCall (flag : DataQualityFlag)
deriving DecidableEq

/-- The value produced by one metric invocation. -/
structure Result where
  value : ℚ
  unit : String
deriving DecidableEq

/-- An entry of the `metrics` argument of `evaluate_flag`: either a
metric name (a string) or a metric instance (`isinstance(metric,
Metric)` is true). -/
inductive MetricId where
  | ofName (s : String)
  | inst (m : Metric)
deriving DecidableEq

/-- Errors surfaced by the evaluator. -/
inductive VetError where
  | UnknownMetricError (name : String)
deriving DecidableEq

/-- Modelled from the spec: the registry module
`gwpy.toolkits.vet.metric.registry` providing `get_metric` is not under
`src/`; the spec describes the registry as a process-wide mapping from
metric name (case-insensitive) to a metric, whose lookup fails with
`UnknownMetricError` for unregistered names.  The registry is passed
explicitly as an association list. -/
def get_metric (registry : List (String × Metric)) (nm : String) :
    Except VetError Metric :=
  match registry.find? (fun p => pyLower p.fst == pyLower nm) with
  | some p => Except.ok p.snd
  | none => Except.error (VetError.UnknownMetricError nm)

/-- The `flag` argument of `evaluate_flag`: either a
`DataQualityFlag` or raw active-interval data. -/
inductive FlagArg where
  | flag (f : DataQualityFlag)
  | raw (active : List Segment)
deriving DecidableEq

/-- `core.py` lines 60-61: wrap raw interval data into a flag
(`DataQualityFlag(active=flag)` has empty name and empty `known`). -/
def asFlag : FlagArg → DataQualityFlag
  | FlagArg.flag f => f
  | FlagArg.raw a => { name := "", active := a, known := [] }

/-- The veto test of `core.py` line 67:
`float(get_row_value(t, 'time')) in flag.active`. -/
def vetoedBy (flag : DataQualityFlag) (t : Trigger) : Bool :=
  segmentlistContains flag.active (get_row_value_time t)

/-- `core.py` lines 65-69: `after = triggers.copy()` (a row-less copy),
then every trigger whose time is not in `flag.active` is appended. -/
def applyVetoes (flag : DataQualityFlag) (triggers : List Trigger) :
    List Trigger :=
  triggers.foldl (fun after t => if vetoedBy flag t then after else after ++ [t]) []

/-- The vetoed side of the partition: the triggers skipped by the
`continue` branch of `core.py` line 68. -/
def vetoedTriggers (flag : DataQualityFlag) (triggers : List Trigger) :
    List Trigger :=
  triggers.filter (fun t => vetoedBy flag t)

/-- The three-way dispatch of `core.py` lines 80-85. -/
def dispatch {ι : Type} (m : Metric) (flag : DataQualityFlag)
    (triggers after : Option (List Trigger)) (injections : Option ι) :
    Invocation ι :=
  if pyLower m.name = "safety" then Invocation.safetyCall flag injections
  else if m.needs_triggers then Invocation.triggersCall flag triggers after
  else Invocation.flagCall flag

/-- `OrderedDict.__setitem__`: a new key is appended at the end; an
existing key keeps its original position and receives the new value. -/
def odSet {κ ν : Type} [DecidableEq κ] (out : List (κ × ν)) (k : κ) (v : ν) :
    List (κ × ν) :=
  if k ∈ out.map Prod.fst then
    out.map (fun p => if p.fst = k then (p.fst, v) else p)
  else out ++ [(k, v)]

/-- The metric loop of `core.py` lines 74-85: resolve each entry (a
registry lookup only when it is a name), dispatch, and record the
result under the caller's original identifier in the ordered mapping
`out`. -/
def runMetrics {ι : Type} (registry : List (String × Metric))
    (call : Metric → Invocation ι → Result) (flag : DataQualityFlag)
    (triggers after : Option (List Trigger)) (injections : Option ι) :
    List MetricId → List (MetricId × Result) →
    Except VetError (List (MetricId × Result))
  | [], out => Except.ok out
  | metric :: rest, out =>
    match (match metric with
           | MetricId.inst m => Except.ok m
           | MetricId.ofName n => get_metric registry n) with
    | Except.error e => Except.error e
    | Except.ok m =>
        runMetrics registry call flag triggers after injections rest
          (odSet out metric (call m (dispatch m flag triggers after injections)))

/-- `evaluate_flag` of `core.py` lines 38-87: normalize the flag, apply
vetoes to the triggers when given (`after = None` otherwise), then run
every requested metric and return the ordered results mapping together
with the surviving triggers. -/
def evaluate_flag {ι : Type} (registry : List (String × Metric))
    (call : Metric → Invocation ι → Result) (flag : FlagArg)
    (triggers : Option (List Trigger)) (metrics : List MetricId)
    (injections : Option ι) :
    Except VetError (List (MetricId × Result) × Option (List Trigger)) :=
  let f := asFlag flag
  let after : Option (List Trigger) :=
    match triggers with
    | some ts => some (applyVetoes f ts)
    | none => none
  match runMetrics registry call f triggers after injections metrics [] with
  | Except.error e => Except.error e
  | Except.ok out => Except.ok (out, after)

/-- A flag entry of `gwvet.tabs.FlagTab`: either a flag name (string)
or a 2-tuple `(name, sourcefile)`.  The tab's `name` argument has the
same type. -/
inductive FlagEntry where
  | str (s : String)
  | tup (a : String) (b : String)
deriving DecidableEq

/-- Python `str` of a flag entry: a string is itself, a tuple of two
strings renders as its `repr`, e.g. `('a', 'b')`. -/
def FlagEntry.pyStr : FlagEntry → String
  | FlagEntry.str s => s
  | FlagEntry.tup a b => "(\x27" ++ a ++ "\x27, \x27" ++ b ++ "\x27)"

/-- The attributes of a `FlagTab` set by the fragment of
`FlagTab.__init__` under study (`tabs.py` lines 95-114). -/
structure FlagTab where
  name : FlagEntry
  flags : List FlagEntry
  intersection : Bool
  metaflag : String
deriving DecidableEq

/-- `tabs.py` lines 95-114 of `FlagTab.__init__`: when `flags` is
empty it becomes `[name]`, and if `name` is a tuple the stored name
becomes its first element; then `metaflag` is the flags joined by `&`
under intersection and by `|` otherwise. -/
def FlagTab.init (nm : FlagEntry) (flags : List FlagEntry)
    (intersection : Bool) : FlagTab :=
  let flags2 := if flags.length = 0 then [nm] else flags
  let nm2 :=
    if flags.length = 0 then
      match nm with
      | FlagEntry.tup a _ => FlagEntry.str a
      | e => e
    else nm
  let metaflag :=
    if intersection then
      String.intercalate "&" (flags2.map FlagEntry.pyStr)
    else
      String.intercalate "|" (flags2.map FlagEntry.pyStr)
  { name := nm2, flags := flags2, intersection := intersection,
    metaflag := metaflag }

/-- The key sequence produced by repeatedly setting keys into an
initially empty `OrderedDict`: the first occurrence of each key, in
order of first appearance. -/
def odKeys {κ : Type} [DecidableEq κ] (l : List κ) : List κ :=
  l.foldl (fun acc k => if k ∈ acc then acc else acc ++ [k]) []

/-- The error raised by `FlagTab.from_ini` on a bad combine option. -/
inductive TabError where
  | ValueError (msg : String)
deriving DecidableEq

/-- `tabs.py` lines 165-177 of `FlagTab.from_ini`: the flag-combine
logic.  `flagsCount` is the length of `kwargs['flags']`, `preset` is
the pre-existing `intersection` entry of `kwargs` when present, and
`combine` is the `combine` option of the config section when present
(`none` models `NoOptionError`).  Returns the resulting `intersection`
entry of `kwargs`, or the raised `ValueError`. -/
def FlagTab.from_ini_combine (flagsCount : Nat) (preset : Option Bool)
    (combine : Option String) : Except TabError (Option Bool) :=
  if flagsCount > 1 ∧ preset = none then
    match combine with
    | none => Except.ok (some false)
    | some c =>
        if pyLower c = "intersection" then Except.ok (some true)
        else if ¬(pyLower c = "union") then
          Except.error (TabError.ValueError
            ("Cannot parse flag combine operator \x27" ++ c ++ "\x27"))
        else Except.ok (some false)
  else Except.ok preset

/-! ### Helper lemmas -/

/-- The append-to-survivors loop of `applyVetoes`, generalized over the
accumulator. -/
theorem applyVetoes_loop (flag : DataQualityFlag) (ts : List Trigger) :
    ∀ acc : List Trigger,
      ts.foldl (fun after t => if vetoedBy flag t then after else after ++ [t]) acc
        = acc ++ ts.filter (fun t => !vetoedBy flag t) := by
  induction ts with
  | nil => intro acc; simp
  | cons t ts ih =>
      intro acc
      cases hv : vetoedBy flag t with
      | true => simp [List.filter_cons, hv, ih]
      | false => simp [List.filter_cons, hv, ih]

/-- The survivors are exactly the triggers whose veto test is false. -/
theorem applyVetoes_eq_filter (flag : DataQualityFlag) (ts : List Trigger) :
    applyVetoes flag ts = ts.filter (fun t => !vetoedBy flag t) := by
  simpa using applyVetoes_loop flag ts []

/-- A boolean filter and its complement partition the multiset of
elements of a list. -/
theorem count_filter_partition {α : Type} [DecidableEq α] (p : α → Bool)
    (l : List α) (a : α) :
    (l.filter (fun x => !p x)).count a + (l.filter p).count a = l.count a := by
  cases hp : p a
  · rw [List.count_filter (by simp [hp])]
    have h0 : (l.filter p).count a = 0 := by
      rw [List.count_eq_zero]
      intro hmem
      rw [List.mem_filter, hp] at hmem
      exact Bool.false_ne_true hmem.2
    omega
  · rw [List.count_filter hp]
    have h0 : (l.filter (fun x => !p x)).count a = 0 := by
      rw [List.count_eq_zero]
      intro hmem
      rw [List.mem_filter] at hmem
      simp [hp] at hmem
    omega

/-! ### Claim theorems -/

/-- C1: for every flag and every supplied trigger list, the returned
`after` is a partition complement of the vetoed triggers: each trigger
of the input belongs, with multiplicity, to exactly one of the vetoed
list and the survivors; a trigger survives exactly when its time does
not lie in the flag's `active` segment list and is vetoed exactly when
it does; `after` is a sublist of the input, hence preserves its
relative order; any successful `evaluate_flag` run on these triggers
returns exactly these survivors; and on the concrete scenario with
`active = [[10, 20]]` and trigger times `[5, 15, 25]` the survivors are
the triggers at times 5 and 25. -/
theorem evaluate_flag_partition (flag : DataQualityFlag) (ts : List Trigger) :
    (∀ t : Trigger,
      (applyVetoes flag ts).count t + (vetoedTriggers flag ts).count t = ts.count t)
    ∧ (∀ t ∈ ts,
        (t ∈ applyVetoes flag ts ↔ segmentlistContains flag.active t.time = false)
        ∧ (t ∈ vetoedTriggers flag ts ↔ segmentlistContains flag.active t.time = true)
        ∧ (t ∈ applyVetoes flag ts ↔ ¬t ∈ vetoedTriggers flag ts))
    ∧ List.Sublist (applyVetoes flag ts) ts
    ∧ (∀ {ι : Type} (registry : List (String × Metric))
        (call : Metric → Invocation ι → Result) (metrics : List MetricId)
        (injections : Option ι) (res : List (MetricId × Result) × Option (List Trigger)),
        evaluate_flag registry call (FlagArg.flag flag) (some ts) metrics injections
            = Except.ok res →
        res.snd = some (applyVetoes flag ts))
    ∧ applyVetoes { name := "", active := [{ start := 10, stop := 20 }], known := [] }
        [{ time := 5, payload := 0 }, { time := 15, payload := 1 }, { time := 25, payload := 2 }]
      = [{ time := 5, payload := 0 }, { time := 25, payload := 2 }] := by
  have hmem : ∀ t : Trigger,
      (t ∈ applyVetoes flag ts ↔ t ∈ ts ∧ vetoedBy flag t = false)
      ∧ (t ∈ vetoedTriggers flag ts ↔ t ∈ ts ∧ vetoedBy flag t = true) := by
    intro t
    rw [applyVetoes_eq_filter, vetoedTriggers, List.mem_filter, List.mem_filter]
    simp
  refine ⟨?_, ?_, ?_, ?_, by decide⟩
  · intro t
    rw [applyVetoes_eq_filter, vetoedTriggers]
    exact count_filter_partition (fun t => vetoedBy flag t) ts t
  · intro t ht
    have hv : vetoedBy flag t = segmentlistContains flag.active t.time := rfl
    refine ⟨?_, ?_, ?_⟩
    · rw [(hmem t).1, hv]
      simp [ht]
    · rw [(hmem t).2, hv]
      simp [ht]
    · rw [(hmem t).1, (hmem t).2]
      simp [ht]
  · rw [applyVetoes_eq_filter]
    exact List.filter_sublist ts
  · intro ι registry call metrics injections res h
    simp only [evaluate_flag, asFlag] at h
    split at h
    · cases h
    · cases h
      rfl

/-- Witness for the partition theorem at the concrete scenario of the
claim: flag active `[[10, 20]]`, triggers at times `[5, 15, 25]`. -/
theorem evaluate_flag_partition_witness :
    ((⟨15, 1⟩ : Trigger) ∈ ([⟨5, 0⟩, ⟨15, 1⟩, ⟨25, 2⟩] : List Trigger))
    ∧ ((⟨15, 1⟩ : Trigger) ∈
          applyVetoes ⟨"", [⟨10, 20⟩], []⟩ [⟨5, 0⟩, ⟨15, 1⟩, ⟨25, 2⟩]
        ↔ segmentlistContains [⟨10, 20⟩] (15 : ℚ) = false)
    ∧ evaluate_flag ([] : List (String × Metric))
        (fun _ _ => ({ value := 0, unit := "" } : Result))
        (FlagArg.flag ⟨"", [⟨10, 20⟩], []⟩)
        (some [⟨5, 0⟩, ⟨15, 1⟩, ⟨25, 2⟩]) [] (none : Option Unit)
        = Except.ok ([], some [⟨5, 0⟩, ⟨25, 2⟩])
    ∧ (some [⟨5, 0⟩, ⟨25, 2⟩] : Option (List Trigger))
        = some (applyVetoes ⟨"", [⟨10, 20⟩], []⟩ [⟨5, 0⟩, ⟨15, 1⟩, ⟨25, 2⟩]) :=
  ⟨by decide,
   ((evaluate_flag_partition ⟨"", [⟨10, 20⟩], []⟩ [⟨5, 0⟩, ⟨15, 1⟩, ⟨25, 2⟩]).2.1
      ⟨15, 1⟩ (by decide)).1,
   by decide,
   (evaluate_flag_partition ⟨"", [⟨10, 20⟩], []⟩ [⟨5, 0⟩, ⟨15, 1⟩, ⟨25, 2⟩]).2.2.2.1
      ([] : List (String × Metric))
      (fun _ _ => ({ value := 0, unit := "" } : Result)) [] (none : Option Unit)
      ([], some [⟨5, 0⟩, ⟨25, 2⟩]) (by decide)⟩

/-- C2: every metric is dispatched with exactly one of three fixed
invocation shapes: a metric whose name lowercases to `safety` is
invoked with `(flag, injections)` regardless of `needs_triggers`;
otherwise a metric with `needs_triggers` is invoked with
`(flag, triggers, after=after)`; otherwise with `(flag,)`.  Moreover a
successful `evaluate_flag` run on a single metric instance records
exactly the value of the metric at the dispatched invocation. -/
theorem dispatch_protocol {ι : Type} (m : Metric) (flag : DataQualityFlag)
    (triggers after : Option (List Trigger)) (injections : Option ι) :
    (pyLower m.name = "safety" →
      dispatch m flag triggers after injections = Invocation.safetyCall flag injections)
    ∧ (pyLower m.name ≠ "safety" → m.needs_triggers = true →
      dispatch m flag triggers after injections = Invocation.triggersCall flag triggers after)
    ∧ (pyLower m.name ≠ "safety" → m.needs_triggers = false →
      dispatch m flag triggers after injections = Invocation.flagCall flag)
    ∧ (∀ (registry : List (String × Metric)) (call : Metric → Invocation ι → Result)
        (res : List (MetricId × Result) × Option (List Trigger)),
        evaluate_flag registry call (FlagArg.flag flag) triggers [MetricId.inst m] injections
            = Except.ok res →
        res.fst = [(MetricId.inst m,
          call m (dispatch m flag triggers (Option.map (applyVetoes flag) triggers)
            injections))]) := by
  refine ⟨?_, ?_, ?_, ?_⟩
  · intro hs
    simp [dispatch, hs]
  · intro hs hn
    simp [dispatch, hs, hn]
  · intro hs hn
    simp [dispatch, hs, hn]
  · intro registry call res h
    cases triggers with
    | none =>
        simp only [evaluate_flag, runMetrics, odSet, asFlag, Option.map] at h ⊢
        cases h
        simp [odSet]
    | some ts =>
        simp only [evaluate_flag, runMetrics, odSet, asFlag, Option.map] at h ⊢
        cases h
        simp [odSet]

/-- Witness for the dispatch theorem: a metric named `Safety` with
`needs_triggers = true` is still dispatched with the safety shape. -/
theorem dispatch_protocol_witness :
    pyLower "Safety" = "safety"
    ∧ dispatch ⟨"Safety", true, 0⟩ ⟨"F", [], []⟩ none none (none : Option Unit)
        = Invocation.safetyCall ⟨"F", [], []⟩ none
    ∧ evaluate_flag ([] : List (String × Metric))
        (fun (_ : Metric) (_ : Invocation Unit) => ({ value := 0, unit := "" } : Result))
        (FlagArg.flag ⟨"F", [], []⟩) none
        [MetricId.inst ⟨"Safety", true, 0⟩] (none : Option Unit)
      = Except.ok ([(MetricId.inst ⟨"Safety", true, 0⟩, ({ value := 0, unit := "" } : Result))],
          none)
    ∧ ([(MetricId.inst ⟨"Safety", true, 0⟩, ({ value := 0, unit := "" } : Result))],
        (none : Option (List Trigger))).fst
      = [(MetricId.inst ⟨"Safety", true, 0⟩,
          (fun (_ : Metric) (_ : Invocation Unit) => ({ value := 0, unit := "" } : Result))
            ⟨"Safety", true, 0⟩
            (dispatch ⟨"Safety", true, 0⟩ ⟨"F", [], []⟩ none
              (Option.map (applyVetoes ⟨"F", [], []⟩) none) none))] :=
  ⟨by decide,
   (dispatch_protocol ⟨"Safety", true, 0⟩ ⟨"F", [], []⟩ none none
      (none : Option Unit)).1 (by decide),
   by decide,
   (dispatch_protocol ⟨"Safety", true, 0⟩ ⟨"F", [], []⟩ none none
      (none : Option Unit)).2.2.2
     ([] : List (String × Metric))
     (fun (_ : Metric) (_ : Invocation Unit) => ({ value := 0, unit := "" } : Result))
     ([(MetricId.inst ⟨"Safety", true, 0⟩, ({ value := 0, unit := "" } : Result))], none)
     (by decide)⟩

/-- C5: when the `triggers` argument is absent, the `after` component
of a successful evaluation is the sentinel `none`, which is distinct
from an empty trigger list. -/
theorem evaluate_flag_no_triggers {ι : Type} (registry : List (String × Metric))
    (call : Metric → Invocation ι → Result) (flag : FlagArg)
    (metrics : List MetricId) (injections : Option ι)
    (res : List (MetricId × Result) × Option (List Trigger))
    (h : evaluate_flag registry call flag none metrics injections = Except.ok res) :
    res.snd = none ∧ res.snd ≠ some ([] : List Trigger) := by
  simp only [evaluate_flag] at h
  split at h
  · cases h
  · cases h
    exact ⟨rfl, by simp⟩

/-- Witness for the sentinel theorem at a concrete call. -/
theorem evaluate_flag_no_triggers_witness :
    evaluate_flag ([] : List (String × Metric))
        (fun (_ : Metric) (_ : Invocation Unit) => ({ value := 0, unit := "" } : Result))
        (FlagArg.raw []) none [] (none : Option Unit)
      = Except.ok ([], none)
    ∧ (([], none) : List (MetricId × Result) × Option (List Trigger)).snd = none
    ∧ (([], none) : List (MetricId × Result) × Option (List Trigger)).snd
        ≠ some ([] : List Trigger) :=
  ⟨rfl,
   (evaluate_flag_no_triggers ([] : List (String × Metric))
     (fun (_ : Metric) (_ : Invocation Unit) => ({ value := 0, unit := "" } : Result))
     (FlagArg.raw []) [] (none : Option Unit) ([], none) rfl).1,
   (evaluate_flag_no_triggers ([] : List (String × Metric))
     (fun (_ : Metric) (_ : Invocation Unit) => ({ value := 0, unit := "" } : Result))
     (FlagArg.raw []) [] (none : Option Unit) ([], none) rfl).2⟩

/-- C7: the evaluator is deterministic: two calls on equal registries,
metric semantics, flags, triggers, metric lists and injections return
equal `(results, after)` values. -/
theorem evaluate_flag_deterministic {ι : Type}
    (r1 r2 : List (String × Metric)) (c1 c2 : Metric → Invocation ι → Result)
    (f1 f2 : FlagArg) (t1 t2 : Option (List Trigger)) (m1 m2 : List MetricId)
    (i1 i2 : Option ι) (hr : r1 = r2) (hc : c1 = c2) (hf : f1 = f2)
    (ht : t1 = t2) (hm : m1 = m2) (hi : i1 = i2) :
    evaluate_flag r1 c1 f1 t1 m1 i1 = evaluate_flag r2 c2 f2 t2 m2 i2 := by
  rw [hr, hc, hf, ht, hm, hi]

/-- Witness for determinism at a concrete call. -/
theorem evaluate_flag_deterministic_witness :
    evaluate_flag ([] : List (String × Metric))
        (fun (_ : Metric) (_ : Invocation Unit) => ({ value := 0, unit := "" } : Result))
        (FlagArg.raw []) none [] (none : Option Unit)
      = evaluate_flag ([] : List (String × Metric))
        (fun (_ : Metric) (_ : Invocation Unit) => ({ value := 0, unit := "" } : Result))
        (FlagArg.raw []) none [] (none : Option Unit) :=
  evaluate_flag_deterministic ([] : List (String × Metric)) ([] : List (String × Metric))
    (fun (_ : Metric) (_ : Invocation Unit) => ({ value := 0, unit := "" } : Result))
    (fun (_ : Metric) (_ : Invocation Unit) => ({ value := 0, unit := "" } : Result))
    (FlagArg.raw []) (FlagArg.raw []) none none [] [] (none : Option Unit)
    (none : Option Unit) rfl rfl rfl rfl rfl rfl

/-- When some requested name fails its registry lookup, the metric
loop fails with an `UnknownMetricError`, whatever the accumulator. -/
theorem runMetrics_error_of_unknown {ι : Type} (registry : List (String × Metric))
    (call : Metric → Invocation ι → Result) (flag : DataQualityFlag)
    (triggers after : Option (List Trigger)) (injections : Option ι) :
    ∀ (metrics : List MetricId) (out : List (MetricId × Result)),
      (∃ n, MetricId.ofName n ∈ metrics
          ∧ get_metric registry n = Except.error (VetError.UnknownMetricError n)) →
      ∃ n2, runMetrics registry call flag triggers after injections metrics out
          = Except.error (VetError.UnknownMetricError n2) := by
  intro metrics
  induction metrics with
  | nil =>
      rintro out ⟨n, hn, _⟩
      cases hn
  | cons mid rest ih =>
      rintro out ⟨n, hn, hfail⟩
      cases mid with
      | inst m =>
          have hn2 : MetricId.ofName n ∈ rest := by
            cases hn with
            | tail _ h => exact h
          simpa [runMetrics] using ih _ ⟨n, hn2, hfail⟩
      | ofName s =>
          cases hg : get_metric registry s with
          | error e =>
              cases e with
              | UnknownMetricError n3 =>
                  exact ⟨n3, by simp [runMetrics, hg]⟩
          | ok m =>
              have hn2 : MetricId.ofName n ∈ rest := by
                cases hn with
                | head =>
                    rw [hg] at hfail
                    cases hfail
                | tail _ h => exact h
              simpa [runMetrics, hg] using ih _ ⟨n, hn2, hfail⟩

/-- C4: a metrics list containing a name with no registry entry makes
the whole call fail with `UnknownMetricError`: the caller receives
`Except.error`, never a `(results, after)` pair, so no partitioned
`after` is observable for that call. -/
theorem evaluate_flag_unknown_metric {ι : Type} (registry : List (String × Metric))
    (call : Metric → Invocation ι → Result) (flag : FlagArg)
    (triggers : Option (List Trigger)) (metrics : List MetricId)
    (injections : Option ι)
    (h : ∃ n, MetricId.ofName n ∈ metrics
        ∧ get_metric registry n = Except.error (VetError.UnknownMetricError n)) :
    (∃ n2, evaluate_flag registry call flag triggers metrics injections
        = Except.error (VetError.UnknownMetricError n2))
    ∧ ∀ res, evaluate_flag registry call flag triggers metrics injections
        ≠ Except.ok res := by
  obtain ⟨n2, hrun⟩ :=
    runMetrics_error_of_unknown registry call (asFlag flag) triggers
      (match triggers with
       | some ts => some (applyVetoes (asFlag flag) ts)
       | none => none) injections metrics [] h
  have hev : evaluate_flag registry call flag triggers metrics injections
      = Except.error (VetError.UnknownMetricError n2) := by
    simp only [evaluate_flag, hrun]
  refine ⟨⟨n2, hev⟩, ?_⟩
  intro res hok
  rw [hev] at hok
  cases hok

/-- Witness for the unknown-metric theorem: requesting the
unregistered name `bogus` fails even though triggers were supplied. -/
theorem evaluate_flag_unknown_metric_witness :
    (∃ n, MetricId.ofName n ∈ [MetricId.ofName "bogus"]
        ∧ get_metric ([] : List (String × Metric)) n
          = Except.error (VetError.UnknownMetricError n))
    ∧ (∃ n2, evaluate_flag ([] : List (String × Metric))
        (fun (_ : Metric) (_ : Invocation Unit) => ({ value := 0, unit := "" } : Result))
        (FlagArg.raw [⟨10, 20⟩]) (some [⟨15, 1⟩]) [MetricId.ofName "bogus"]
        (none : Option Unit)
      = Except.error (VetError.UnknownMetricError n2)) :=
  ⟨⟨"bogus", by simp, rfl⟩,
   (evaluate_flag_unknown_metric ([] : List (String × Metric))
     (fun (_ : Metric) (_ : Invocation Unit) => ({ value := 0, unit := "" } : Result))
     (FlagArg.raw [⟨10, 20⟩]) (some [⟨15, 1⟩]) [MetricId.ofName "bogus"]
     (none : Option Unit) ⟨"bogus", by simp, rfl⟩).1⟩

/-- Updating the value at a key leaves the key sequence unchanged. -/
theorem map_fst_odUpdate {κ ν : Type} [DecidableEq κ] (out : List (κ × ν))
    (k : κ) (v : ν) :
    (out.map (fun p => if p.fst = k then (p.fst, v) else p)).map Prod.fst
      = out.map Prod.fst := by
  induction out with
  | nil => rfl
  | cons p ps ih => by_cases hp : p.fst = k <;> simp [hp, ih]

/-- The key sequence after one `OrderedDict` assignment. -/
theorem odSet_keys {κ ν : Type} [DecidableEq κ] (out : List (κ × ν)) (k : κ) (v : ν) :
    (odSet out k v).map Prod.fst
      = if k ∈ out.map Prod.fst then out.map Prod.fst
        else out.map Prod.fst ++ [k] := by
  by_cases hk : k ∈ out.map Prod.fst
  · simp only [odSet, hk, if_true]
    exact map_fst_odUpdate out k v
  · simp [odSet, hk]

/-- The key sequence of a successful metric loop is the `OrderedDict`
fold of the requested identifiers over the starting keys. -/
theorem runMetrics_keys {ι : Type} (registry : List (String × Metric))
    (call : Metric → Invocation ι → Result) (flag : DataQualityFlag)
    (triggers after : Option (List Trigger)) (injections : Option ι) :
    ∀ (metrics : List MetricId) (out : List (MetricId × Result))
      (res : List (MetricId × Result)),
      runMetrics registry call flag triggers after injections metrics out
          = Except.ok res →
      res.map Prod.fst
        = metrics.foldl (fun acc k => if k ∈ acc then acc else acc ++ [k])
            (out.map Prod.fst) := by
  intro metrics
  induction metrics with
  | nil =>
      intro out res h
      cases h
      simp
  | cons mid rest ih =>
      intro out res h
      cases mid with
      | inst m =>
          simp only [runMetrics] at h
          rw [ih _ res h, List.foldl_cons, odSet_keys]
      | ofName s =>
          cases hg : get_metric registry s with
          | error e =>
              simp only [runMetrics, hg] at h
              cases h
          | ok m =>
              simp only [runMetrics, hg] at h
              rw [ih _ res h, List.foldl_cons, odSet_keys]

/-- The `OrderedDict` key fold over fresh pairwise-distinct keys
appends them all in order. -/
theorem odKeys_loop {κ : Type} [DecidableEq κ] :
    ∀ (l : List κ) (acc : List κ), (∀ k ∈ l, ¬k ∈ acc) → l.Nodup →
      l.foldl (fun acc k => if k ∈ acc then acc else acc ++ [k]) acc = acc ++ l := by
  intro l
  induction l with
  | nil =>
      intro acc _ _
      simp
  | cons k rest ih =>
      intro acc hdisj hnodup
      have hk : ¬k ∈ acc := hdisj k (List.mem_cons_self k rest)
      rw [List.foldl_cons, if_neg hk]
      rw [ih (acc ++ [k]) ?_ (List.Nodup.of_cons hnodup)]
      · simp
      · intro x hx
        rw [List.mem_append, List.mem_singleton]
        rintro (hxa | hxk)
        · exact hdisj x (List.mem_cons_of_mem k hx) hxa
        · subst hxk
          exact (List.nodup_cons.mp hnodup).1 hx

/-- On a duplicate-free key list the `OrderedDict` key fold is the
identity. -/
theorem odKeys_of_nodup {κ : Type} [DecidableEq κ] (l : List κ) (h : l.Nodup) :
    odKeys l = l := by
  simpa using odKeys_loop l [] (by simp) h

/-- A metric loop over instance-only entries never consults the
registry. -/
theorem runMetrics_registry_free {ι : Type} (r1 r2 : List (String × Metric))
    (call : Metric → Invocation ι → Result) (flag : DataQualityFlag)
    (triggers after : Option (List Trigger)) (injections : Option ι) :
    ∀ (metrics : List MetricId) (out : List (MetricId × Result)),
      (∀ mid ∈ metrics, ∀ n, mid ≠ MetricId.ofName n) →
      runMetrics r1 call flag triggers after injections metrics out
        = runMetrics r2 call flag triggers after injections metrics out := by
  intro metrics
  induction metrics with
  | nil =>
      intro out _
      rfl
  | cons mid rest ih =>
      intro out hinst
      cases mid with
      | inst m =>
          simp only [runMetrics]
          exact ih _ (fun x hx => hinst x (List.mem_cons_of_mem _ hx))
      | ofName s =>
          exact absurd rfl (hinst (MetricId.ofName s) (List.mem_cons_self _ _) s)

/-- C3 as frozen fails: with the registered name `a` requested twice,
the ordered results mapping collapses the duplicate key, so its key
sequence is `[a]`, not the input list `[a, a]`. -/
theorem evaluate_flag_results_keys_counterexample :
    (evaluate_flag [("a", ⟨"a", false, 0⟩)]
        (fun (_ : Metric) (_ : Invocation Unit) => ({ value := 0, unit := "" } : Result))
        (FlagArg.raw []) none [MetricId.ofName "a", MetricId.ofName "a"]
        (none : Option Unit)).map (fun res => res.fst.map Prod.fst)
      = Except.ok [MetricId.ofName "a"]
    ∧ ([MetricId.ofName "a"] : List MetricId)
        ≠ [MetricId.ofName "a", MetricId.ofName "a"] :=
  ⟨by decide, by decide⟩

/-- C3 (amended): the results of a successful evaluation are keyed by
the caller's original identifiers; the key sequence is the sequence of
first occurrences of the input identifiers, hence equals the input
`metrics` list whenever that list has no duplicate identifier; and the
registry is consulted only for entries given as names, so an
instance-only metrics list evaluates identically under any registry. -/
theorem evaluate_flag_results_keys {ι : Type} (registry : List (String × Metric))
    (call : Metric → Invocation ι → Result) (flag : FlagArg)
    (triggers : Option (List Trigger)) (metrics : List MetricId)
    (injections : Option ι)
    (res : List (MetricId × Result) × Option (List Trigger))
    (h : evaluate_flag registry call flag triggers metrics injections = Except.ok res) :
    res.fst.map Prod.fst = odKeys metrics
    ∧ (metrics.Nodup → res.fst.map Prod.fst = metrics)
    ∧ ((∀ mid ∈ metrics, ∀ n, mid ≠ MetricId.ofName n) →
        ∀ r2, evaluate_flag r2 call flag triggers metrics injections
          = evaluate_flag registry call flag triggers metrics injections) := by
  have hkeys : res.fst.map Prod.fst = odKeys metrics := by
    simp only [evaluate_flag] at h
    split at h
    · cases h
    · cases h
      rename_i out heq
      simpa [odKeys] using
        runMetrics_keys registry call (asFlag flag) triggers _ injections
          metrics [] out heq
  refine ⟨hkeys, ?_, ?_⟩
  · intro hnodup
    rw [hkeys, odKeys_of_nodup metrics hnodup]
  · intro hinst r2
    simp only [evaluate_flag]
    rw [runMetrics_registry_free r2 registry call (asFlag flag) triggers _
      injections metrics [] hinst]

/-- Witness for the amended keys theorem on a duplicate-free list
mixing a name and an instance. -/
theorem evaluate_flag_results_keys_witness :
    evaluate_flag [("a", ⟨"a", false, 0⟩)]
        (fun (_ : Metric) (_ : Invocation Unit) => ({ value := 0, unit := "" } : Result))
        (FlagArg.raw []) none [MetricId.ofName "a", MetricId.inst ⟨"b", false, 1⟩]
        (none : Option Unit)
      = Except.ok ([(MetricId.ofName "a", ({ value := 0, unit := "" } : Result)),
          (MetricId.inst ⟨"b", false, 1⟩, ({ value := 0, unit := "" } : Result))], none)
    ∧ ([MetricId.ofName "a", MetricId.inst ⟨"b", false, 1⟩] : List MetricId).Nodup
    ∧ ([(MetricId.ofName "a", ({ value := 0, unit := "" } : Result)),
        (MetricId.inst ⟨"b", false, 1⟩, ({ value := 0, unit := "" } : Result))],
        (none : Option (List Trigger))).fst.map Prod.fst
      = [MetricId.ofName "a", MetricId.inst ⟨"b", false, 1⟩] :=
  ⟨by decide, by decide,
   (evaluate_flag_results_keys [("a", ⟨"a", false, 0⟩)]
     (fun (_ : Metric) (_ : Invocation Unit) => ({ value := 0, unit := "" } : Result))
     (FlagArg.raw []) none [MetricId.ofName "a", MetricId.inst ⟨"b", false, 1⟩]
     (none : Option Unit)
     ([(MetricId.ofName "a", ({ value := 0, unit := "" } : Result)),
       (MetricId.inst ⟨"b", false, 1⟩, ({ value := 0, unit := "" } : Result))], none)
     (by decide)).2.1 (by decide)⟩

/-- C8: for a non-empty input flag list, the derived flag's name
(`metaflag`) is the literal combination expression: the flag strings
joined by `&` in intersection mode and by `|` otherwise. -/
theorem flagtab_metaflag (nm : FlagEntry) (flags : List FlagEntry)
    (intersection : Bool) (h : flags ≠ []) :
    (FlagTab.init nm flags intersection).metaflag
      = String.intercalate (if intersection then "&" else "|")
          (flags.map FlagEntry.pyStr)
    ∧ (intersection = true → (FlagTab.init nm flags intersection).metaflag
        = String.intercalate "&" (flags.map FlagEntry.pyStr))
    ∧ (intersection = false → (FlagTab.init nm flags intersection).metaflag
        = String.intercalate "|" (flags.map FlagEntry.pyStr)) := by
  have hlen : ¬flags.length = 0 := by
    simpa [List.length_eq_zero] using h
  cases intersection <;> simp [FlagTab.init, hlen]

/-- Witness for the metaflag theorem: two flags in both modes. -/
theorem flagtab_metaflag_witness :
    ([FlagEntry.str "A", FlagEntry.str "B"] : List FlagEntry) ≠ []
    ∧ (FlagTab.init (FlagEntry.str "X") [FlagEntry.str "A", FlagEntry.str "B"]
        true).metaflag
      = String.intercalate (if true then "&" else "|")
          ([FlagEntry.str "A", FlagEntry.str "B"].map FlagEntry.pyStr)
    ∧ (FlagTab.init (FlagEntry.str "X") [FlagEntry.str "A", FlagEntry.str "B"]
        false).metaflag
      = String.intercalate "|"
          ([FlagEntry.str "A", FlagEntry.str "B"].map FlagEntry.pyStr) :=
  ⟨by decide,
   (flagtab_metaflag (FlagEntry.str "X") [FlagEntry.str "A", FlagEntry.str "B"]
     true (by decide)).1,
   (flagtab_metaflag (FlagEntry.str "X") [FlagEntry.str "A", FlagEntry.str "B"]
     false (by decide)).2.2 rfl⟩

/-- C9: constructing a tab with an empty flags list tests the name
itself: `flags` becomes `[name]`; a tuple name keeps the full tuple as
the flag entry while the tab's display name becomes the tuple's first
element; a string name is kept as is. -/
theorem flagtab_default_flags (nm : FlagEntry) (intersection : Bool) :
    (FlagTab.init nm [] intersection).flags = [nm]
    ∧ (∀ a b, nm = FlagEntry.tup a b →
        (FlagTab.init nm [] intersection).name = FlagEntry.str a
        ∧ (FlagTab.init nm [] intersection).flags = [FlagEntry.tup a b])
    ∧ (∀ s, nm = FlagEntry.str s →
        (FlagTab.init nm [] intersection).name = FlagEntry.str s) := by
  refine ⟨?_, ?_, ?_⟩
  · cases nm <;> simp [FlagTab.init]
  · intro a b hab
    subst hab
    exact ⟨by simp [FlagTab.init], by simp [FlagTab.init]⟩
  · intro s hs
    subst hs
    simp [FlagTab.init]

/-- Witness for the empty-flags default: a tuple name. -/
theorem flagtab_default_flags_witness :
    (FlagTab.init (FlagEntry.tup "A" "seg.xml") [] false).flags
      = [FlagEntry.tup "A" "seg.xml"]
    ∧ (FlagTab.init (FlagEntry.tup "A" "seg.xml") [] false).name
      = FlagEntry.str "A" :=
  ⟨(flagtab_default_flags (FlagEntry.tup "A" "seg.xml") false).1,
   ((flagtab_default_flags (FlagEntry.tup "A" "seg.xml") false).2.1
     "A" "seg.xml" rfl).1⟩

/-- C10: for a configuration with more than one flag and no pre-set
intersection option, the combine option selects the mode: a value
lowercasing to `intersection` selects intersection, a value
lowercasing to `union` or an absent option selects union, and any
other value raises `ValueError`. -/
theorem from_ini_combine_protocol (flagsCount : Nat) (combine : Option String)
    (h : flagsCount > 1) :
    (combine = none →
      FlagTab.from_ini_combine flagsCount none combine = Except.ok (some false))
    ∧ (∀ c, combine = some c → pyLower c = "intersection" →
      FlagTab.from_ini_combine flagsCount none combine = Except.ok (some true))
    ∧ (∀ c, combine = some c → pyLower c = "union" →
      FlagTab.from_ini_combine flagsCount none combine = Except.ok (some false))
    ∧ (∀ c, combine = some c → pyLower c ≠ "intersection" → pyLower c ≠ "union" →
      ∃ msg, FlagTab.from_ini_combine flagsCount none combine
        = Except.error (TabError.ValueError msg)) := by
  refine ⟨?_, ?_, ?_, ?_⟩
  · intro hc
    subst hc
    simp [FlagTab.from_ini_combine, h]
  · intro c hc hlow
    subst hc
    simp [FlagTab.from_ini_combine, h, hlow]
  · intro c hc hlow
    subst hc
    have hne : ¬pyLower c = "intersection" := by
      rw [hlow]
      decide
    simp [FlagTab.from_ini_combine, h, hlow, hne]
  · intro c hc hni hnu
    subst hc
    refine ⟨"Cannot parse flag combine operator \x27" ++ c ++ "\x27", ?_⟩
    simp [FlagTab.from_ini_combine, h, hni, hnu]

/-- Witness for the combine protocol: two flags, the four cases at
concrete option values. -/
theorem from_ini_combine_protocol_witness :
    FlagTab.from_ini_combine 2 none none = Except.ok (some false)
    ∧ FlagTab.from_ini_combine 2 none (some "Intersection") = Except.ok (some true)
    ∧ FlagTab.from_ini_combine 2 none (some "UNION") = Except.ok (some false)
    ∧ (∃ msg, FlagTab.from_ini_combine 2 none (some "both")
        = Except.error (TabError.ValueError msg)) :=
  ⟨(from_ini_combine_protocol 2 none (by decide)).1 rfl,
   (from_ini_combine_protocol 2 (some "Intersection") (by decide)).2.1
     "Intersection" rfl (by decide),
   (from_ini_combine_protocol 2 (some "UNION") (by decide)).2.2.1
     "UNION" rfl (by decide),
   (from_ini_combine_protocol 2 (some "both") (by decide)).2.2.2
     "both" rfl (by decide) (by decide)⟩

end Vet
